import Mathlib

/-!
LedgerSync record-store layer: a shallow embedding.

This file embeds the record-store layer of the Metacog-AI/ledgersync
repository (the TypeScript modules ledger.ts, promises.ts, reports.ts, the
type declarations in types.ts, the CLI promise lookup, and the conflict
check documented in docs/ARCHITECTURE.md) and proves the specified
properties about it.

Modelling conventions:
- A stream file (ledger.jsonl, promises.jsonl, reports.jsonl) is a list of
  raw lines.  A raw line is either blank (empty or whitespace-only text,
  which the read path (trim the content, split it into lines, filter out
  the blank lines) silently discards and which JSON.parse would reject), a line holding the
  JSON serialization of one well-formed record (`JSON.stringify(r)`), or a
  malformed line that JSON.parse rejects.  Line content is abstracted to
  this three-way tag; a `record` line round-trips to its record, matching
  JSON.parse ∘ JSON.stringify on plain records.
- Timestamps (ISO-8601 strings in the source, compared only by order) are
  modelled as naturals; `new Date().toISOString()` becomes an explicit
  `now` parameter.  Generated UUIDs become explicit id parameters.
- Functions that mutate files return the new store paired with an
  `Except`; a thrown exception is an `error` result paired with the store
  as the mutation left it.  Functions returning `null`/`undefined` return
  `Option`.
- Fields required by the JSON schema but absent from an invalid raw record
  are modelled as `Option` where a claim exercises their absence
  (`reasoning.intent`); the schema validator checks their presence.
-/

-- ============================================
-- Data model (types.ts)
-- ============================================

/-- ISO-8601 instant, abstracted to a natural number (order-isomorphic). -/
abbrev Timestamp := Nat

/-- AgentInfo (types.ts): name plus optional model/version strings. -/
structure AgentInfo where
  name : String
  model : Option String
  version : Option String
deriving DecidableEq, Repr

/-- SessionInfo (types.ts). -/
structure SessionInfo where
  id : String
  entryIndex : Nat
  parentEntryId : Option String
deriving DecidableEq, Repr

/-- ActionType (types.ts). -/
inductive ActionType where
  | create | modify | delete | analyze | plan | debug | refactor | other
deriving DecidableEq, Repr

/-- ActionInfo (types.ts): action kind, summary (max 200 chars, enforced by
the schema, not the type), optional description. -/
structure ActionInfo where
  type : ActionType
  summary : String
  description : Option String
deriving DecidableEq, Repr

/-- ReasoningInfo (types.ts).  `intent` is required by the schema; a raw
record may lack it, so it is an `Option` checked by the validator.
`confidence` is a number in [0,1], modelled as a rational. -/
structure ReasoningInfo where
  intent : Option String
  considerations : Option (List String)
  assumptions : Option (List String)
  uncertainties : Option (List String)
  confidence : Option ℚ
deriving DecidableEq, Repr

/-- ToolCall (types.ts); the `Record<string, unknown>` parameter map is
abstracted to string key/value pairs. -/
structure ToolCall where
  name : String
  parameters : Option (List (String × String))
deriving DecidableEq, Repr

/-- Artifact change kind (types.ts ArtifactChange.action). -/
inductive ArtifactAction where
  | created | modified | deleted | read
deriving DecidableEq, Repr

/-- ArtifactChange (types.ts). -/
structure ArtifactChange where
  path : String
  action : ArtifactAction
  linesChanged : Option Nat
  summary : Option String
deriving DecidableEq, Repr

/-- GroundingInfo (types.ts). -/
structure GroundingInfo where
  philosophyRefs : Option (List String)
  constraintsApplied : Option (List String)
  alignmentNotes : Option String
deriving DecidableEq, Repr

/-- EntryType (types.ts). -/
inductive EntryType where
  | handoff | transition | implementation | bugfix | review
deriving DecidableEq, Repr

/-- LedgerEntry (types.ts).  The optional type-specific payloads
(sessionSummary, transition, implementation, bugfix, review) are read by
no embedded operation and are omitted. -/
structure LedgerEntry where
  id : String
  timestamp : Timestamp
  agent : AgentInfo
  session : SessionInfo
  entryType : Option EntryType
  action : ActionInfo
  reasoning : ReasoningInfo
  tools : List ToolCall
  artifacts : List ArtifactChange
  userPrompt : Option String
  tags : Option (List String)
  relatedEntries : Option (List String)
  grounding : Option GroundingInfo
deriving DecidableEq, Repr

/-- PromiseType (types.ts): will-do, will-not-do, will-maintain,
will-provide. -/
inductive PromiseType where
  | willDo | willNotDo | willMaintain | willProvide
deriving DecidableEq, Repr

/-- PromiseStatus (types.ts). -/
inductive PromiseStatus where
  | active | fulfilled | broken | withdrawn | superseded
deriving DecidableEq, Repr

/-- PromiseScope (types.ts). -/
inductive PromiseScope where
  | session | project | permanent
deriving DecidableEq, Repr

/-- PromiseEntry.promiser (types.ts). -/
structure Promiser where
  agent : String
  session : Option String
deriving DecidableEq, Repr

/-- PromiseEntry.promisee (types.ts): target agent or "*". -/
structure Promisee where
  agent : String
  scope : Option PromiseScope
deriving DecidableEq, Repr

/-- PromiseEntry.promise (types.ts): the promise body. -/
structure PromiseBody where
  type : PromiseType
  summary : String
  description : Option String
  conditions : Option (List String)
deriving DecidableEq, Repr

/-- PromiseEntry.context (types.ts). -/
structure PromiseContext where
  relatedEntries : Option (List String)
  artifacts : Option (List String)
  constraintRefs : Option (List String)
  userPrompt : Option String
deriving DecidableEq, Repr

/-- PromiseEntry (types.ts). -/
structure PromiseEntry where
  id : String
  timestamp : Timestamp
  promiser : Promiser
  promisee : Promisee
  promise : PromiseBody
  context : Option PromiseContext
  status : PromiseStatus
  resolvedBy : Option String
  resolvedAt : Option Timestamp
  supersededBy : Option String
  tags : Option (List String)
deriving DecidableEq, Repr

/-- ReporterRole (types.ts). -/
inductive ReporterRole where
  | actor | witness | human
deriving DecidableEq, Repr

/-- VerdictStatus (types.ts): fulfilled / partial / broken.  The source
name of the middle alternative is the string "partial"; it is rendered
`partialStatus` here because of the Lean keyword. -/
inductive VerdictStatus where
  | fulfilled | partialStatus | broken
deriving DecidableEq, Repr

/-- WorkReport.reporter (types.ts). -/
structure Reporter where
  agent : String
  role : ReporterRole
  session : Option String
deriving DecidableEq, Repr

/-- WorkReport.report (types.ts): facts, not judgments. -/
structure ReportBody where
  workCompleted : String
  remaining : Option (List String)
  blockers : Option (List String)
  confidenceInCompletion : ℚ
deriving DecidableEq, Repr

/-- WorkReport.verdict (types.ts). -/
structure Verdict where
  status : VerdictStatus
  reasoning : String
deriving DecidableEq, Repr

/-- WorkReport (types.ts). -/
structure WorkReport where
  id : String
  timestamp : Timestamp
  reporter : Reporter
  promiseId : String
  report : ReportBody
  verdict : Option Verdict
  relatedEntries : Option (List String)
  tags : Option (List String)
deriving DecidableEq, Repr

-- ============================================
-- Stream files and the persistent store
-- ============================================

/-- One raw line of a .jsonl stream file.  `blank` is an empty or
whitespace-only line (discarded by `filter(line => line.trim())` before
parsing; JSON.parse would reject it); `record r` is `JSON.stringify r`;
`malformed raw` is any other line, which JSON.parse rejects. -/
inductive RawLine (α : Type) where
  | blank
  | record (r : α)
  | malformed (raw : String)
deriving DecidableEq, Repr

/-- Is the line kept by `filter(line => line.trim())`? -/
def RawLine.nonBlank : RawLine α → Bool
  | .blank => false
  | _ => true

/-- The three stream files owned by the stores (ledger.jsonl,
promises.jsonl, reports.jsonl).  A missing file reads the same as an empty
one in the source, so it is modelled as the empty list. -/
structure Store where
  ledger : List (RawLine LedgerEntry)
  promises : List (RawLine PromiseEntry)
  reports : List (RawLine WorkReport)
deriving DecidableEq, Repr

/-- The errors the store layer throws: `jsonParse n` models
`Error("Invalid JSON on line n: ...")` (n is 1-based and counted over the
non-blank lines, as in the filter-then-map of the source); `schemaValidation`
models `Error("Invalid entry/promise/report: ...")`. -/
inductive StoreError where
  | jsonParse (line : Nat)
  | schemaValidation
deriving DecidableEq, Repr

/-- `lines.map((line, index) => JSON.parse(line))` over the non-blank
lines, starting at 1-based index i: the first malformed line aborts the
whole read.  Blank lines are skipped without consuming an index, which is
exactly the effect of filtering them out before the indexed map. -/
def parseLinesFrom (i : Nat) : List (RawLine α) → Except StoreError (List α)
  | [] => .ok []
  | .blank :: rest => parseLinesFrom i rest
  | .record r :: rest => (parseLinesFrom (i + 1) rest).map (fun l => r :: l)
  | .malformed _ :: _ => .error (.jsonParse i)

/-- Parse a whole stream file (readLedger / readPromises / readReports
body): trim, split into lines, drop blanks, JSON.parse each line. -/
def parseJsonl (file : List (RawLine α)) : Except StoreError (List α) :=
  parseLinesFrom 1 file

/-- JavaScript Array.prototype.slice(start) with a single argument:
a negative start counts from the end (clamped at 0); note (-0 : Int) = 0,
so slice(-0) = slice(0) = the whole array. -/
def jsSlice (l : List α) (start : Int) : List α :=
  if start < 0 then l.drop (l.length - start.natAbs)
  else l.drop start.toNat

/-- The rational one half (the source literal 0.5), given in lowest terms
so that kernel evaluation of comparisons with it reduces. -/
def ratHalf : ℚ := ⟨1, 2, by norm_num, by norm_num⟩

/-- JS String.prototype.startsWith, on the character sequences. -/
def strStartsWith (s pre : String) : Bool :=
  pre.data.isPrefixOf s.data

/-- Does the second character sequence occur contiguously somewhere in the
first? -/
def charsWithin (sub : List Char) : List Char → Bool
  | [] => sub.isEmpty
  | b :: bs => sub.isPrefixOf (b :: bs) || charsWithin sub bs

/-- JS String.prototype.includes (substring containment), on the
character sequences. -/
def strIncludes (s sub : String) : Bool :=
  charsWithin sub.data s.data

-- ============================================
-- Schema validators
-- ============================================

/-- Modelled from the spec: the compiled JSON schema file
entry.schema.json is not in the repository, so the recognized Entry shape
comes from spec §3 — reasoning.intent is required; action summary is at
most 200 characters; confidence, when present, lies in [0,1].  All other
§3 shape constraints are enforced by the Lean record types themselves. -/
def isValidEntry (e : LedgerEntry) : Bool :=
  e.reasoning.intent.isSome
    && e.action.summary.length ≤ 200
    && (match e.reasoning.confidence with
        | none => true
        | some c => decide (0 ≤ c) && decide (c ≤ 1))

/-- Modelled from the spec: promise.schema.json is not in the repository;
per spec §3 the promise summary is limited to 200 characters (types.ts
annotates the field "max 200 chars"); the remaining §3 shape constraints
are enforced by the record types. -/
def isValidPromise (p : PromiseEntry) : Bool :=
  p.promise.summary.length ≤ 200

/-- Modelled from the spec: report.schema.json is not in the repository;
per spec §3 confidenceInCompletion lies in [0,1]; the remaining shape
constraints are enforced by the record types. -/
def isValidReport (r : WorkReport) : Bool :=
  decide (0 ≤ r.report.confidenceInCompletion)
    && decide (r.report.confidenceInCompletion ≤ 1)

-- ============================================
-- Entry store (ledger.ts)
-- ============================================

/-- readLedger (ledger.ts): read ledger.jsonl and parse every line. -/
def readLedger (s : Store) : Except StoreError (List LedgerEntry) :=
  parseJsonl s.ledger

/-- readLastN (ledger.ts): readLedger then entries.slice(-n). -/
def readLastN (s : Store) (n : Nat) : Except StoreError (List LedgerEntry) :=
  (readLedger s).map (fun entries => jsSlice entries (-(n : Int)))

/-- appendEntry (ledger.ts): validate first (throwing a schema-validation
error with the file untouched), then append one serialized line with a
trailing newline. -/
def appendEntry (s : Store) (e : LedgerEntry) : Store × Except StoreError Unit :=
  if isValidEntry e then
    ({ s with ledger := s.ledger ++ [RawLine.record e] }, .ok ())
  else
    (s, .error .schemaValidation)

-- ============================================
-- Promise store (promises.ts)
-- ============================================

/-- readPromises (promises.ts). -/
def readPromises (s : Store) : Except StoreError (List PromiseEntry) :=
  parseJsonl s.promises

/-- readLastNPromises (promises.ts): promises.slice(-n). -/
def readLastNPromises (s : Store) (n : Nat) : Except StoreError (List PromiseEntry) :=
  (readPromises s).map (fun promises => jsSlice promises (-(n : Int)))

/-- getPromiseById (promises.ts): readPromises(root).find(p => p.id === id). -/
def getPromiseById (s : Store) (id : String) : Except StoreError (Option PromiseEntry) :=
  (readPromises s).map (fun promises => promises.find? (fun p => p.id == id))

/-- appendPromise (promises.ts): validate, then append one line. -/
def appendPromise (s : Store) (p : PromiseEntry) : Store × Except StoreError Unit :=
  if isValidPromise p then
    ({ s with promises := s.promises ++ [RawLine.record p] }, .ok ())
  else
    (s, .error .schemaValidation)

/-- The promises.findIndex / in-place update step of resolvePromise
(promises.ts): locate the first promise whose id matches, replace it by a
copy with the new status, resolvedBy and a fresh resolvedAt, and return
the updated list together with the updated record.  `none` models
findIndex returning -1. -/
def resolveInList (now : Timestamp) (promiseId : String) (status : PromiseStatus)
    (resolvedBy : Option String) :
    List PromiseEntry → Option (List PromiseEntry × PromiseEntry)
  | [] => none
  | p :: rest =>
    let q : PromiseEntry :=
      { p with
        status := status
        resolvedBy := resolvedBy
        resolvedAt := some now }
    if p.id == promiseId then
      some (q :: rest, q)
    else
      match resolveInList now promiseId status resolvedBy rest with
      | none => none
      | some (rest', q) => some (p :: rest', q)

/-- resolvePromise (promises.ts): read the whole file, update the first
matching record, rewrite the whole file (one serialized record per line,
so blank lines do not survive a rewrite), and return the updated record;
returns null when no record matches. -/
def resolvePromise (now : Timestamp) (s : Store) (promiseId : String)
    (status : PromiseStatus) (resolvedBy : Option String) :
    Store × Except StoreError (Option PromiseEntry) :=
  match readPromises s with
  | .error e => (s, .error e)
  | .ok promises =>
    match resolveInList now promiseId status resolvedBy promises with
    | none => (s, .ok none)
    | some (updated, q) =>
      ({ s with promises := updated.map RawLine.record }, .ok (some q))

-- ============================================
-- Report store (reports.ts)
-- ============================================

/-- readReports (reports.ts). -/
def readReports (s : Store) : Except StoreError (List WorkReport) :=
  parseJsonl s.reports

/-- readLastNReports (reports.ts): reports.slice(-n). -/
def readLastNReports (s : Store) (n : Nat) : Except StoreError (List WorkReport) :=
  (readReports s).map (fun reports => jsSlice reports (-(n : Int)))

/-- appendReport (reports.ts): validate, then append one line. -/
def appendReport (s : Store) (r : WorkReport) : Store × Except StoreError Unit :=
  if isValidReport r then
    ({ s with reports := s.reports ++ [RawLine.record r] }, .ok ())
  else
    (s, .error .schemaValidation)

/-- createVerdictReport (reports.ts): build a verdict report whose
confidenceInCompletion is mapped deterministically from the verdict
status (fulfilled → 1.0, partial → 0.5, broken → 0.0).  The generated
UUID and the current instant are the explicit id / now parameters. -/
def createVerdictReport (now : Timestamp) (id : String) (reporter : Reporter)
    (promiseId : String) (verdict : Verdict) (workCompleted : String)
    (relatedEntries : Option (List String)) (tags : Option (List String)) :
    WorkReport :=
  { id := id
    timestamp := now
    reporter := reporter
    promiseId := promiseId
    report :=
      { workCompleted := workCompleted
        remaining := none
        blockers := none
        confidenceInCompletion :=
          match verdict.status with
          | .fulfilled => 1
          | .partialStatus => ratHalf
          | .broken => 0 }
    verdict := some verdict
    relatedEntries := relatedEntries
    tags := tags }

/-- The verdict-status → promise-status mapping inside addVerdict
(reports.ts): fulfilled → fulfilled, broken → broken, otherwise active. -/
def verdictToPromiseStatus : VerdictStatus → PromiseStatus
  | .fulfilled => .fulfilled
  | .broken => .broken
  | .partialStatus => .active

/-- addVerdict (reports.ts): look the promise up (returning null when it
is absent), build and append a verdict report with reporter role human,
then — when the mapped status is final — resolve the promise, falling
back to the originally read record if resolvePromise returns null. -/
def addVerdict (now : Timestamp) (reportId : String) (s : Store)
    (promiseId : String) (verdictStatus : VerdictStatus) (reasoning : String)
    (reporterAgent : String) :
    Store × Except StoreError (Option (WorkReport × PromiseEntry)) :=
  match getPromiseById s promiseId with
  | .error e => (s, .error e)
  | .ok none => (s, .ok none)
  | .ok (some promise) =>
    let report := createVerdictReport now reportId
      { agent := reporterAgent, role := .human, session := none }
      promiseId { status := verdictStatus, reasoning := reasoning }
      "Reviewed promise fulfillment" none none
    match appendReport s report with
    | (s1, .error e) => (s1, .error e)
    | (s1, .ok _) =>
      if verdictToPromiseStatus verdictStatus = PromiseStatus.active then
        (s1, .ok (some (report, promise)))
      else
        match resolvePromise now s1 promiseId
            (verdictToPromiseStatus verdictStatus) (some report.id) with
        | (s2, .error e) => (s2, .error e)
        | (s2, .ok r) => (s2, .ok (some (report, r.getD promise)))

-- ============================================
-- CLI promise lookup (cli.ts, promise resolve command)
-- ============================================

/-- The promise lookup of the CLI by full or partial id:
promises.find(p => p.id === promiseId || p.id.startsWith(promiseId)).
It takes the first match; nothing detects that a prefix is ambiguous. -/
def cliFindPromise (promises : List PromiseEntry) (ref : String) :
    Option PromiseEntry :=
  promises.find? (fun p => p.id == ref || strStartsWith p.id ref)

-- ============================================
-- Conflict detection (docs/ARCHITECTURE.md, detectConflict)
-- ============================================

/-- Result of the conflict check: either no conflict, or the first
scanned entry whose intent differs, with its intent. -/
inductive ConflictResult where
  | noConflict
  | conflict (priorEntry : LedgerEntry) (priorIntent : Option String)
deriving DecidableEq, Repr

/-- detectConflict (docs/ARCHITECTURE.md): filter the log to entries one
of whose artifacts has path EXACTLY equal to the file
(e.artifacts.some(a => a.path === file)), keep the last five with
slice(-5), and return the first of those whose reasoning.intent differs
from the proposed intent (strict inequality, so a missing intent also
differs). -/
def detectConflict (file : String) (intent : String)
    (ledger : List LedgerEntry) : ConflictResult :=
  let recentEntries :=
    jsSlice (ledger.filter (fun e => e.artifacts.any (fun a => a.path == file)))
      (-(5 : Int))
  match recentEntries.find? (fun e => e.reasoning.intent != some intent) with
  | some entry => .conflict entry entry.reasoning.intent
  | none => .noConflict

/-- The conflict check exactly as claim C3 and spec §4.5 word it: the
five most recent entries whose artifact list includes the target path AS
A SUBSTRING (the §4.2 match), the first of them with a differing intent
reported as the conflict. -/
def conflictCheckSpec (file : String) (intent : String)
    (ledger : List LedgerEntry) : ConflictResult :=
  let scanned :=
    (((ledger.filter
        (fun e => e.artifacts.any (fun a => strIncludes a.path file))).reverse.take
      5)).reverse
  match scanned.find? (fun e => e.reasoning.intent != some intent) with
  | some entry => .conflict entry entry.reasoning.intent
  | none => .noConflict

/-- Claim C3 as amended: identical to conflictCheckSpec except that the
artifact path must be EXACTLY equal to the target file, which is what the
detectConflict of the source implements. -/
def conflictCheckAmended (file : String) (intent : String)
    (ledger : List LedgerEntry) : ConflictResult :=
  let scanned :=
    (((ledger.filter
        (fun e => e.artifacts.any (fun a => a.path == file))).reverse.take
      5)).reverse
  match scanned.find? (fun e => e.reasoning.intent != some intent) with
  | some entry => .conflict entry entry.reasoning.intent
  | none => .noConflict

-- ============================================
-- Concrete records and stores for witnesses and counterexamples
-- ============================================

/-- A store with no files yet (all three streams empty/missing). -/
def emptyStore : Store :=
  { ledger := [], promises := [], reports := [] }

/-- A concrete active promise (Scenario B: will-do, "Add OAuth"). -/
def demoPromise : PromiseEntry :=
  { id := "p-1"
    timestamp := 3
    promiser := { agent := "claude-code", session := none }
    promisee := { agent := "*", scope := none }
    promise :=
      { type := .willDo, summary := "Add OAuth", description := none,
        conditions := none }
    context := none
    status := .active
    resolvedBy := none
    resolvedAt := none
    supersededBy := none
    tags := none }

/-- A store holding exactly demoPromise. -/
def demoStore : Store :=
  { ledger := [], promises := [RawLine.record demoPromise], reports := [] }

/-- demoPromise already resolved as fulfilled (for the terminal-overwrite
witness). -/
def fulfilledPromise : PromiseEntry :=
  { demoPromise with
    id := "p-2"
    status := .fulfilled
    resolvedAt := some 4 }

/-- A store holding exactly fulfilledPromise. -/
def fulfilledStore : Store :=
  { ledger := [], promises := [RawLine.record fulfilledPromise], reports := [] }

/-- Two promises sharing the id prefix "abc" (Scenario D). -/
def promiseAbcOne : PromiseEntry :=
  { demoPromise with id := "abc-1" }

/-- Second promise with the shared "abc" prefix. -/
def promiseAbcTwo : PromiseEntry :=
  { demoPromise with id := "abc-2" }

/-- A concrete valid ledger entry touching the file a.ts with intent
"add feature". -/
def demoEntry : LedgerEntry :=
  { id := "e-1"
    timestamp := 1
    agent := { name := "claude-code", model := none, version := none }
    session := { id := "s-1", entryIndex := 0, parentEntryId := none }
    entryType := none
    action := { type := .modify, summary := "Add feature", description := none }
    reasoning :=
      { intent := some "add feature", considerations := none,
        assumptions := none, uncertainties := none, confidence := none }
    tools := []
    artifacts :=
      [{ path := "a.ts", action := .modified, linesChanged := none,
         summary := none }]
    userPrompt := none
    tags := none
    relatedEntries := none
    grounding := none }

/-- Like demoEntry, but the artifact path is "src/a.ts": it contains
"a.ts" as a proper substring without being equal to it. -/
def entrySrcA : LedgerEntry :=
  { demoEntry with
    id := "e-2"
    artifacts :=
      [{ path := "src/a.ts", action := .modified, linesChanged := none,
         summary := none }] }

/-- An entry whose raw record lacks the required reasoning.intent field:
schema-invalid. -/
def entryNoIntent : LedgerEntry :=
  { demoEntry with
    id := "e-3"
    reasoning :=
      { intent := none, considerations := none, assumptions := none,
        uncertainties := none, confidence := none } }

/-- A ledger file whose only line is blank (whitespace-only): the line is
not valid JSON, yet the read path filters it out. -/
def blankLineStore : Store :=
  { ledger := [RawLine.blank], promises := [], reports := [] }

/-- A ledger file whose only line is malformed (rejected by JSON.parse). -/
def badLedgerStore : Store :=
  { ledger := [RawLine.malformed "not json"], promises := [], reports := [] }

/-- A ledger file with a blank first line, a good second line, and a
malformed third line: the malformed line is line 3 of the file but line 2
among the non-blank lines. -/
def mixedLedgerStore : Store :=
  { ledger := [RawLine.blank, RawLine.record demoEntry,
               RawLine.malformed "not json"]
    promises := []
    reports := [] }

/-- A concrete valid work report on demoPromise. -/
def demoReport : WorkReport :=
  { id := "r-1"
    timestamp := 5
    reporter := { agent := "cursor", role := .actor, session := none }
    promiseId := "p-1"
    report :=
      { workCompleted := "Implemented OAuth flow", remaining := none,
        blockers := none, confidenceInCompletion := 1 }
    verdict := none
    relatedEntries := none
    tags := none }

-- ============================================
-- Helper lemmas
-- ============================================

theorem parseLinesFrom_map_record (i : Nat) (l : List α) :
    parseLinesFrom i (l.map RawLine.record) = .ok l := by
  induction l generalizing i with
  | nil => rfl
  | cons a t ih => simp [parseLinesFrom, ih, Except.map]

theorem parseLinesFrom_append_record (i : Nat) (l : List (RawLine α))
    (xs : List α) (e : α) (h : parseLinesFrom i l = .ok xs) :
    parseLinesFrom i (l ++ [RawLine.record e]) = .ok (xs ++ [e]) := by
  induction l generalizing i xs with
  | nil =>
    simp only [parseLinesFrom] at h
    cases h
    simp [parseLinesFrom, Except.map]
  | cons a t ih =>
    cases a with
    | blank =>
      simp only [parseLinesFrom, List.cons_append] at h ⊢
      exact ih i xs h
    | record r =>
      simp only [parseLinesFrom, List.cons_append] at h ⊢
      cases ht : parseLinesFrom (i + 1) t with
      | error err => rw [ht] at h; simp [Except.map] at h
      | ok ys =>
        rw [ht] at h
        simp only [Except.map] at h
        cases h
        simp [ih (i + 1) ys ht, Except.map]
    | malformed raw =>
      simp [parseLinesFrom] at h

theorem parseLinesFrom_malformed_at (i : Nat) (pre : List α) (raw : String)
    (rest : List (RawLine α)) :
    parseLinesFrom i (pre.map RawLine.record ++ RawLine.malformed raw :: rest)
      = .error (.jsonParse (i + pre.length)) := by
  induction pre generalizing i with
  | nil => simp [parseLinesFrom]
  | cons a t ih =>
    have harith : i + 1 + t.length = i + (t.length + 1) := by omega
    simp [parseLinesFrom, ih (i + 1), Except.map, harith]

theorem parseLinesFrom_filter (i : Nat) (l : List (RawLine α)) :
    parseLinesFrom i (l.filter RawLine.nonBlank) = parseLinesFrom i l := by
  induction l generalizing i with
  | nil => rfl
  | cons a t ih =>
    cases a <;> simp [parseLinesFrom, RawLine.nonBlank, List.filter, ih]

theorem find?_id_of_nodup (ps : List PromiseEntry) (P : PromiseEntry)
    (hmem : P ∈ ps) (hnd : (ps.map PromiseEntry.id).Nodup) :
    ps.find? (fun p => p.id == P.id) = some P := by
  induction ps with
  | nil => cases hmem
  | cons a t ih =>
    rw [List.map_cons, List.nodup_cons] at hnd
    rcases List.mem_cons.mp hmem with rfl | hmem2
    · simp [List.find?]
    · have hne : (a.id == P.id) = false := by
        refine beq_eq_false_iff_ne.mpr ?_
        intro hcontra
        exact hnd.1 (hcontra ▸ List.mem_map_of_mem PromiseEntry.id hmem2)
      simp only [List.find?, hne]
      exact ih hmem2 hnd.2

theorem resolveInList_of_nodup (now : Timestamp) (st : PromiseStatus)
    (rb : Option String) (ps : List PromiseEntry) (P : PromiseEntry)
    (hmem : P ∈ ps) (hnd : (ps.map PromiseEntry.id).Nodup) :
    resolveInList now P.id st rb ps =
      some (ps.map (fun q => if q.id = P.id then
              { q with status := st, resolvedBy := rb, resolvedAt := some now }
            else q),
            { P with status := st, resolvedBy := rb, resolvedAt := some now }) := by
  induction ps with
  | nil => cases hmem
  | cons a t ih =>
    rw [List.map_cons, List.nodup_cons] at hnd
    rcases List.mem_cons.mp hmem with rfl | hmem2
    · have htail : ∀ q ∈ t, (if q.id = P.id then
          { q with status := st, resolvedBy := rb, resolvedAt := some now }
        else q) = q := by
        intro q hq
        refine if_neg ?_
        intro hcontra
        exact hnd.1 (hcontra ▸ List.mem_map_of_mem PromiseEntry.id hq)
      simp only [resolveInList, beq_self_eq_true, if_pos]
      rw [List.map_cons, List.map_congr_left htail]
      simp
    · have hne : a.id ≠ P.id := by
        intro hcontra
        exact hnd.1 (hcontra ▸ List.mem_map_of_mem PromiseEntry.id hmem2)
      have hbeq : (a.id == P.id) = false := beq_eq_false_iff_ne.mpr hne
      simp only [resolveInList, hbeq, Bool.false_eq_true, if_false,
        ih hmem2 hnd.2, List.map_cons, if_neg hne]

theorem takeLast_eq_drop (l : List α) (n : Nat) :
    (l.reverse.take n).reverse = l.drop (l.length - n) := by
  rw [← List.rtake_eq_reverse_take_reverse]
  rfl

theorem ratHalf_eq : ratHalf = 1/2 := by
  rw [ratHalf]
  norm_num [Rat.mk'_eq_divInt, Rat.divInt_eq_div]

theorem parseJsonl_map_record (l : List α) :
    parseJsonl (l.map RawLine.record) = .ok l :=
  parseLinesFrom_map_record 1 l

theorem parseJsonl_map_record_comp (f : β → α) (l : List β) :
    parseJsonl (l.map (RawLine.record ∘ f)) = .ok (l.map f) := by
  rw [← List.map_map, parseJsonl_map_record]

theorem createVerdictReport_id (now : Timestamp) (id : String)
    (reporter : Reporter) (promiseId : String) (verdict : Verdict)
    (workCompleted : String) (relatedEntries tags : Option (List String)) :
    (createVerdictReport now id reporter promiseId verdict workCompleted
      relatedEntries tags).id = id :=
  rfl

-- ============================================
-- Claim theorems
-- ============================================

/-- C1: for every promise P present in the store (all lines parse, ids
unique), addVerdict(root, P.id, v, reasoning) appends a report whose
verdict status is v and whose promiseId is P.id; with v = fulfilled or
v = broken it sets the stored status of P to v, and with v = partial it
leaves the promises file (hence the status of P — an active promise stays
active) unchanged. -/
theorem addVerdict_verdict_propagation
    (s : Store) (ps : List PromiseEntry) (P : PromiseEntry)
    (now : Timestamp) (rid reasoning agent : String) (v : VerdictStatus)
    (r : WorkReport) (P2 : PromiseEntry)
    (hps : readPromises s = .ok ps) (hmem : P ∈ ps)
    (hnd : (ps.map PromiseEntry.id).Nodup)
    (hr : r = createVerdictReport now rid
        { agent := agent, role := .human, session := none } P.id
        { status := v, reasoning := reasoning }
        "Reviewed promise fulfillment" none none)
    (hP2 : P2 = { P with status := verdictToPromiseStatus v, resolvedBy := some rid, resolvedAt := some now }) :
    (addVerdict now rid s P.id v reasoning agent).1.reports
        = s.reports ++ [RawLine.record r]
    ∧ r.promiseId = P.id
    ∧ r.verdict = some { status := v, reasoning := reasoning }
    ∧ (v ≠ VerdictStatus.partialStatus →
        readPromises (addVerdict now rid s P.id v reasoning agent).1
            = .ok (ps.map (fun q => if q.id = P.id then
                { q with status := verdictToPromiseStatus v, resolvedBy := some rid, resolvedAt := some now }
              else q))
        ∧ (addVerdict now rid s P.id v reasoning agent).2 = .ok (some (r, P2)))
    ∧ (v = VerdictStatus.partialStatus →
        (addVerdict now rid s P.id v reasoning agent).1.promises = s.promises
        ∧ (addVerdict now rid s P.id v reasoning agent).2 = .ok (some (r, P))) := by
  subst hr hP2
  have hfind : getPromiseById s P.id = .ok (some P) := by
    unfold getPromiseById
    rw [hps]
    simp [Except.map, find?_id_of_nodup ps P hmem hnd]
  have hvalid : ∀ w : VerdictStatus, isValidReport (createVerdictReport now rid
      { agent := agent, role := .human, session := none } P.id
      { status := w, reasoning := reasoning }
      "Reviewed promise fulfillment" none none) = true := by
    intro w
    cases w <;> norm_num [isValidReport, createVerdictReport, ratHalf_eq]
  have hps2 : parseJsonl s.promises = Except.ok ps := hps
  cases v with
  | partialStatus =>
    refine ⟨?_, rfl, rfl, ?_, ?_⟩
    · simp [addVerdict, hfind, appendReport, hvalid, verdictToPromiseStatus]
    · intro hcontra; exact absurd rfl hcontra
    · intro _
      constructor
      · simp [addVerdict, hfind, appendReport, hvalid, verdictToPromiseStatus]
      · simp [addVerdict, hfind, appendReport, hvalid, verdictToPromiseStatus]
  | fulfilled =>
    have hres := resolveInList_of_nodup now PromiseStatus.fulfilled (some rid) ps P hmem hnd
    refine ⟨?_, rfl, rfl, ?_, ?_⟩
    · simp [addVerdict, hfind, appendReport, hvalid, verdictToPromiseStatus,
        createVerdictReport_id, resolvePromise, readPromises, hps2, hres]
    · intro _
      constructor
      · simp [addVerdict, hfind, appendReport, hvalid, verdictToPromiseStatus,
          createVerdictReport_id, resolvePromise, readPromises, hps2, hres,
          parseJsonl_map_record, parseJsonl_map_record_comp]
      · simp [addVerdict, hfind, appendReport, hvalid, verdictToPromiseStatus,
          createVerdictReport_id, resolvePromise, readPromises, hps2, hres]
    · intro hcontra; exact absurd hcontra (by decide)
  | broken =>
    have hres := resolveInList_of_nodup now PromiseStatus.broken (some rid) ps P hmem hnd
    refine ⟨?_, rfl, rfl, ?_, ?_⟩
    · simp [addVerdict, hfind, appendReport, hvalid, verdictToPromiseStatus,
        createVerdictReport_id, resolvePromise, readPromises, hps2, hres]
    · intro _
      constructor
      · simp [addVerdict, hfind, appendReport, hvalid, verdictToPromiseStatus,
          createVerdictReport_id, resolvePromise, readPromises, hps2, hres,
          parseJsonl_map_record, parseJsonl_map_record_comp]
      · simp [addVerdict, hfind, appendReport, hvalid, verdictToPromiseStatus,
          createVerdictReport_id, resolvePromise, readPromises, hps2, hres]
    · intro hcontra; exact absurd hcontra (by decide)

/-- Witness for C1: on a store holding exactly demoPromise (Scenario B),
addVerdict with a fulfilled verdict appends the verdict report and the
stored promise becomes fulfilled. -/
theorem addVerdict_verdict_propagation_witness :
    (addVerdict 7 "rep-1" demoStore "p-1" VerdictStatus.fulfilled "done" "human").1.reports
        = demoStore.reports ++ [RawLine.record (createVerdictReport 7 "rep-1"
            { agent := "human", role := .human, session := none } "p-1"
            { status := .fulfilled, reasoning := "done" }
            "Reviewed promise fulfillment" none none)]
    ∧ readPromises (addVerdict 7 "rep-1" demoStore "p-1" VerdictStatus.fulfilled "done" "human").1
        = .ok [{ demoPromise with status := PromiseStatus.fulfilled, resolvedBy := some "rep-1", resolvedAt := some 7 }] := by
  have h := addVerdict_verdict_propagation demoStore [demoPromise] demoPromise
    7 "rep-1" "done" "human" VerdictStatus.fulfilled
    (createVerdictReport 7 "rep-1"
      { agent := "human", role := .human, session := none } demoPromise.id
      { status := .fulfilled, reasoning := "done" }
      "Reviewed promise fulfillment" none none)
    { demoPromise with status := verdictToPromiseStatus VerdictStatus.fulfilled, resolvedBy := some "rep-1", resolvedAt := some 7 }
    rfl (List.mem_singleton.mpr rfl) (by simp) rfl rfl
  have h4 := (h.2.2.2.1 (by decide)).1
  exact ⟨h.1, h4.trans (by rfl)⟩

/-- C2: the CLI promise lookup, given the prefix "abc" shared by two
distinct promises in the store, silently returns the first matching
promise instead of failing with an AmbiguousReferenceError listing both
candidates (evaluation of the source lookup at the failing input). -/
theorem cliFindPromise_silent_first_match :
    strStartsWith promiseAbcOne.id "abc" = true
    ∧ strStartsWith promiseAbcTwo.id "abc" = true
    ∧ promiseAbcOne.id ≠ promiseAbcTwo.id
    ∧ cliFindPromise [promiseAbcOne, promiseAbcTwo] "abc" = some promiseAbcOne :=
  ⟨by decide, by decide, by decide, by decide⟩

/-- C3 counterexample: an entry whose artifact path "src/a.ts" contains
the target "a.ts" as a proper substring and whose intent differs from the
proposed one.  The claim (substring matching, conflictCheckSpec) demands
a conflict, but the detectConflict of the source matches paths exactly and
reports no conflict. -/
theorem detectConflict_substring_counterexample :
    strIncludes "src/a.ts" "a.ts" = true
    ∧ entrySrcA.reasoning.intent = some "add feature"
    ∧ conflictCheckSpec "a.ts" "remove feature" [entrySrcA]
        = ConflictResult.conflict entrySrcA (some "add feature")
    ∧ detectConflict "a.ts" "remove feature" [entrySrcA]
        = ConflictResult.noConflict :=
  ⟨by decide, rfl, by decide, by decide⟩

/-- C3 as amended: the conflict check scans the five most recent entries
whose artifact list contains a path EXACTLY equal to the target file
(not a substring match) and reports the first scanned entry whose
reasoning.intent differs from the proposed intent; otherwise no
conflict. -/
theorem detectConflict_matches_exact_path_spec :
    ∀ (file intent : String) (ledger : List LedgerEntry),
      detectConflict file intent ledger = conflictCheckAmended file intent ledger := by
  intro file intent ledger
  have hslice : ∀ l : List LedgerEntry, jsSlice l (-(5 : Int)) = l.drop (l.length - 5) := by
    intro l
    norm_num [jsSlice]
  unfold detectConflict conflictCheckAmended
  rw [hslice, takeLast_eq_drop]

/-- C4: appending a schema-invalid entry (for example one missing
reasoning.intent) fails with a schema-validation error and returns the
store exactly as it was: the ledger file is byte-for-byte unchanged. -/
theorem appendEntry_invalid_leaves_store_unchanged
    (s : Store) (e : LedgerEntry) (h : isValidEntry e = false) :
    appendEntry s e = (s, .error .schemaValidation) := by
  simp [appendEntry, h]

/-- Witness for C4: the concrete entry with no reasoning.intent is
rejected and the store is returned unchanged. -/
theorem appendEntry_invalid_leaves_store_unchanged_witness :
    entryNoIntent.reasoning.intent = none
    ∧ isValidEntry entryNoIntent = false
    ∧ appendEntry demoStore entryNoIntent = (demoStore, .error .schemaValidation) :=
  ⟨rfl, by decide,
    appendEntry_invalid_leaves_store_unchanged demoStore entryNoIntent (by decide)⟩

/-- C5 counterexample: a ledger file whose single line is blank
(whitespace-only, hence not valid JSON — JSON.parse rejects it) is read
back successfully as the empty list; no parse error is thrown, contrary
to the claim that any line that is not valid JSON aborts the read. -/
theorem readLedger_blank_line_counterexample :
    blankLineStore.ledger = [RawLine.blank]
    ∧ readLedger blankLineStore = .ok []
    ∧ ∀ err, readLedger blankLineStore ≠ .error err := by
  refine ⟨rfl, rfl, ?_⟩
  intro err h
  rw [show readLedger blankLineStore = Except.ok [] from rfl] at h
  exact Except.noConfusion h

/-- C5 as amended: blank (whitespace-only) lines are silently skipped;
if a non-blank line is malformed, readLedger and readLastN abort the
entire read with a parse error carrying the 1-based index of the first
malformed line among the non-blank lines of the file (equal to its file line
number when no blank line precedes it), and return no partial results. -/
theorem readLedger_aborts_at_first_malformed_line
    (s : Store) (pre : List LedgerEntry) (raw : String)
    (rest : List (RawLine LedgerEntry))
    (h : s.ledger.filter RawLine.nonBlank
          = pre.map RawLine.record ++ RawLine.malformed raw :: rest) :
    readLedger s = .error (.jsonParse (pre.length + 1))
    ∧ ∀ n, readLastN s n = .error (.jsonParse (pre.length + 1)) := by
  have h1 : readLedger s = .error (.jsonParse (pre.length + 1)) := by
    have h2 := parseLinesFrom_filter 1 s.ledger
    rw [h, parseLinesFrom_malformed_at 1 pre raw rest] at h2
    have h3 : 1 + pre.length = pre.length + 1 := Nat.add_comm 1 pre.length
    rw [h3] at h2
    unfold readLedger parseJsonl
    exact h2.symm
  refine ⟨h1, ?_⟩
  intro n
  unfold readLastN
  rw [h1]
  rfl

/-- Witness for C5 (amended): in a file whose lines are blank, a good
record, and a malformed line, the read aborts with line number 2 — the
position of the malformed line among the non-blank lines. -/
theorem readLedger_aborts_at_first_malformed_line_witness :
    mixedLedgerStore.ledger.filter RawLine.nonBlank
        = [demoEntry].map RawLine.record ++ RawLine.malformed "not json" :: []
    ∧ readLedger mixedLedgerStore = .error (.jsonParse 2)
    ∧ readLastN mixedLedgerStore 1 = .error (.jsonParse 2) := by
  have h := readLedger_aborts_at_first_malformed_line mixedLedgerStore
    [demoEntry] "not json" [] (by rfl)
  exact ⟨by rfl, h.1, h.2 1⟩

/-- C6 counterexample: on an empty store, addVerdict for a missing
promise id does NOT fail with an error — it returns null (ok none) and
leaves the store (in particular the reports file) unchanged. -/
theorem addVerdict_missing_promise_counterexample :
    addVerdict 3 "rep-x" emptyStore "nonexistent-id" VerdictStatus.fulfilled "why" "human"
        = (emptyStore, .ok none)
    ∧ ∀ err, (addVerdict 3 "rep-x" emptyStore "nonexistent-id" VerdictStatus.fulfilled "why" "human").2
        ≠ .error err := by
  refine ⟨rfl, ?_⟩
  intro err h
  rw [show (addVerdict 3 "rep-x" emptyStore "nonexistent-id" VerdictStatus.fulfilled "why" "human").2
      = Except.ok none from rfl] at h
  exact Except.noConfusion h

/-- C6 as amended: for every readable store and every promise id that
matches no stored promise, addVerdict returns null (an absent result,
not a thrown error), appends no report, and leaves the store unchanged. -/
theorem addVerdict_missing_promise_returns_null
    (s : Store) (ps : List PromiseEntry) (pid : String)
    (now : Timestamp) (rid reasoning agent : String) (v : VerdictStatus)
    (hps : readPromises s = .ok ps)
    (habsent : ∀ p ∈ ps, p.id ≠ pid) :
    addVerdict now rid s pid v reasoning agent = (s, .ok none) := by
  have hfind : ps.find? (fun p => p.id == pid) = none := by
    apply List.find?_eq_none.mpr
    intro p hp
    simpa using habsent p hp
  unfold addVerdict getPromiseById
  rw [hps]
  simp [Except.map, hfind]

/-- Witness for C6 (amended): looking up the id "zzz" in the store that
only holds demoPromise returns null and changes nothing. -/
theorem addVerdict_missing_promise_returns_null_witness :
    addVerdict 3 "rep-y" demoStore "zzz" VerdictStatus.broken "why" "human"
      = (demoStore, .ok none) :=
  addVerdict_missing_promise_returns_null demoStore [demoPromise] "zzz"
    3 "rep-y" "why" "human" VerdictStatus.broken rfl (by decide)

/-- C7 counterexample: on a store whose existing ledger file already has
a malformed line, appending a valid entry succeeds, yet readLedger then
throws a parse error instead of returning a list containing the appended
entry — the round-trip property fails for that store state. -/
theorem roundTrip_malformed_store_counterexample :
    isValidEntry demoEntry = true
    ∧ (appendEntry badLedgerStore demoEntry).2 = .ok ()
    ∧ readLedger (appendEntry badLedgerStore demoEntry).1
        = .error (.jsonParse 1) :=
  ⟨by decide, by rfl, by rfl⟩

/-- C7 as amended: on every store whose three stream files currently
parse, appending a valid Entry / Promise / Report succeeds and the
corresponding readAll returns the previous list extended with the new
record — in particular it contains an element structurally equal to it. -/
theorem roundTrip_after_append
    (s : Store) (es : List LedgerEntry) (ps : List PromiseEntry)
    (rs : List WorkReport) (e : LedgerEntry) (p : PromiseEntry) (r : WorkReport)
    (hes : readLedger s = .ok es) (hps : readPromises s = .ok ps)
    (hrs : readReports s = .ok rs)
    (hve : isValidEntry e = true) (hvp : isValidPromise p = true)
    (hvr : isValidReport r = true) :
    ((appendEntry s e).2 = .ok ()
      ∧ readLedger (appendEntry s e).1 = .ok (es ++ [e]) ∧ e ∈ es ++ [e])
    ∧ ((appendPromise s p).2 = .ok ()
      ∧ readPromises (appendPromise s p).1 = .ok (ps ++ [p]) ∧ p ∈ ps ++ [p])
    ∧ ((appendReport s r).2 = .ok ()
      ∧ readReports (appendReport s r).1 = .ok (rs ++ [r]) ∧ r ∈ rs ++ [r]) := by
  refine ⟨⟨?_, ?_, by simp⟩, ⟨?_, ?_, by simp⟩, ⟨?_, ?_, by simp⟩⟩
  · simp [appendEntry, hve]
  · simp only [appendEntry, hve, if_true]
    unfold readLedger parseJsonl at hes ⊢
    exact parseLinesFrom_append_record 1 s.ledger es e hes
  · simp [appendPromise, hvp]
  · simp only [appendPromise, hvp, if_true]
    unfold readPromises parseJsonl at hps ⊢
    exact parseLinesFrom_append_record 1 s.promises ps p hps
  · simp [appendReport, hvr]
  · simp only [appendReport, hvr, if_true]
    unfold readReports parseJsonl at hrs ⊢
    exact parseLinesFrom_append_record 1 s.reports rs r hrs

/-- Witness for C7 (amended): appending the concrete demo records to the
empty store and reading back yields exactly those records. -/
theorem roundTrip_after_append_witness :
    readLedger (appendEntry emptyStore demoEntry).1 = .ok [demoEntry]
    ∧ readPromises (appendPromise emptyStore demoPromise).1 = .ok [demoPromise]
    ∧ readReports (appendReport emptyStore demoReport).1 = .ok [demoReport] := by
  have h := roundTrip_after_append emptyStore [] [] [] demoEntry demoPromise
    demoReport rfl rfl rfl (by decide) (by decide) (by decide)
  exact ⟨h.1.2.1, h.2.1.2.1, h.2.2.2.1⟩

/-- C8: when resolvePromise succeeds on a stored promise P (readable
file, unique ids, and the clock not behind the creation instant of P), the
returned record carries status s, keeps the original timestamp of P, and its
resolvedAt is a timestamp not smaller than that original timestamp. -/
theorem resolvePromise_status_and_resolvedAt
    (s : Store) (ps : List PromiseEntry) (P : PromiseEntry)
    (now : Timestamp) (st : PromiseStatus) (rb : Option String)
    (hps : readPromises s = .ok ps) (hmem : P ∈ ps)
    (hnd : (ps.map PromiseEntry.id).Nodup)
    (hclock : P.timestamp ≤ now) :
    ∃ q : PromiseEntry,
      (resolvePromise now s P.id st rb).2 = .ok (some q)
      ∧ q.status = st
      ∧ q.timestamp = P.timestamp
      ∧ q.resolvedAt = some now
      ∧ ∀ t, q.resolvedAt = some t → P.timestamp ≤ t := by
  have hps2 : parseJsonl s.promises = Except.ok ps := hps
  have hres := resolveInList_of_nodup now st rb ps P hmem hnd
  refine ⟨{ P with status := st, resolvedBy := rb, resolvedAt := some now },
    ?_, rfl, rfl, rfl, ?_⟩
  · simp [resolvePromise, readPromises, hps2, hres]
  · intro t ht
    cases ht
    exact hclock

/-- Witness for C8: resolving demoPromise (created at instant 3) as
fulfilled at instant 9 returns a fulfilled record whose resolvedAt (9) is
at least its original timestamp (3). -/
theorem resolvePromise_status_and_resolvedAt_witness :
    ∃ q : PromiseEntry,
      (resolvePromise 9 demoStore "p-1" PromiseStatus.fulfilled none).2 = .ok (some q)
      ∧ q.status = PromiseStatus.fulfilled
      ∧ q.timestamp = demoPromise.timestamp
      ∧ q.resolvedAt = some 9
      ∧ ∀ t, q.resolvedAt = some t → demoPromise.timestamp ≤ t :=
  resolvePromise_status_and_resolvedAt demoStore [demoPromise] demoPromise
    9 PromiseStatus.fulfilled none rfl (List.mem_singleton.mpr rfl)
    (by simp) (by decide)

/-- C9: resolvePromise has no guard on the current status: for a stored
promise P whose status is already terminal (fulfilled, broken, withdrawn
or superseded), it still succeeds and overwrites the stored status with
the new status s. -/
theorem resolvePromise_overwrites_terminal
    (s : Store) (ps : List PromiseEntry) (P : PromiseEntry)
    (now : Timestamp) (st : PromiseStatus) (rb : Option String)
    (hps : readPromises s = .ok ps) (hmem : P ∈ ps)
    (hnd : (ps.map PromiseEntry.id).Nodup)
    (_hterm : P.status = PromiseStatus.fulfilled ∨ P.status = PromiseStatus.broken
      ∨ P.status = PromiseStatus.withdrawn ∨ P.status = PromiseStatus.superseded) :
    (resolvePromise now s P.id st rb).2
        = .ok (some { P with status := st, resolvedBy := rb, resolvedAt := some now })
    ∧ readPromises (resolvePromise now s P.id st rb).1
        = .ok (ps.map (fun q => if q.id = P.id then
            { q with status := st, resolvedBy := rb, resolvedAt := some now }
          else q)) := by
  have hps2 : parseJsonl s.promises = Except.ok ps := hps
  have hres := resolveInList_of_nodup now st rb ps P hmem hnd
  constructor
  · simp [resolvePromise, readPromises, hps2, hres]
  · simp [resolvePromise, readPromises, hps2, hres, parseJsonl_map_record,
      parseJsonl_map_record_comp]

/-- Witness for C9: fulfilledPromise (already terminal) is re-resolved to
broken; the call succeeds and the stored status becomes broken. -/
theorem resolvePromise_overwrites_terminal_witness :
    (resolvePromise 11 fulfilledStore "p-2" PromiseStatus.broken none).2
        = .ok (some { fulfilledPromise with status := PromiseStatus.broken, resolvedBy := none, resolvedAt := some 11 })
    ∧ readPromises (resolvePromise 11 fulfilledStore "p-2" PromiseStatus.broken none).1
        = .ok [{ fulfilledPromise with status := PromiseStatus.broken, resolvedBy := none, resolvedAt := some 11 }] := by
  have h := resolvePromise_overwrites_terminal fulfilledStore [fulfilledPromise]
    fulfilledPromise 11 PromiseStatus.broken none rfl
    (List.mem_singleton.mpr rfl) (by simp) (Or.inl rfl)
  exact ⟨h.1, h.2.trans (by rfl)⟩

/-- C10: readLastN (and readLastNPromises, readLastNReports) with n = 0
return the whole record list, because the implementation computes
entries.slice(-n) and (-0 : Int) = 0, so slice(-0) = slice(0). -/
theorem readLastN_zero_returns_all :
    ∀ s : Store,
      readLastN s 0 = readLedger s
      ∧ readLastNPromises s 0 = readPromises s
      ∧ readLastNReports s 0 = readReports s := by
  intro s
  have hslice : ∀ (α : Type) (l : List α), jsSlice l (-(0 : Int)) = l := by
    intro α l
    norm_num [jsSlice]
  refine ⟨?_, ?_, ?_⟩
  · unfold readLastN
    cases h : readLedger s with
    | error err => rfl
    | ok l => norm_num [Except.map, jsSlice]
  · unfold readLastNPromises
    cases h : readPromises s with
    | error err => rfl
    | ok l => norm_num [Except.map, jsSlice]
  · unfold readLastNReports
    cases h : readReports s with
    | error err => rfl
    | ok l => norm_num [Except.map, jsSlice]
